import Mathlib

/-!
Shallow embedding of the Helios backend (decision_engine.py and
metacognition.py) and verification of the frozen claims about it.

Modelling conventions:
* Python floats are embedded as rationals (ℚ); all comparisons, clamps and
  least-squares computations in the source are exact arithmetic over the
  same formulas.
* `np.std` (the square root of the population variance) is irrational in
  general, so `calculate_confidence` is parametrised by the function
  `std : List ℚ → ℚ` that plays its role; no theorem below depends on its
  values beyond what the source guarantees structurally.
* The journal / metric store (`memory_store`) is external.  Its write entry
  points (`store_enhanced_journal_entry`, `store_performance_metric`) are
  modelled by a success flag `jOk : Bool`: when `jOk = true` the write is
  accepted and recorded in the model's `journal` trace (the sequence of
  event types written), when `jOk = false` the write raises, modelled by
  `Except.error`.  Reads (`get_performance_metrics`) are modelled by the
  `stored_metrics` data carried in the state.
* `datetime` fields (timestamps, deadlines) are not modelled, except that a
  goal deadline is abstracted to the `days_left` integer the source would
  compute from it at decision time.
* Python's in-place mutation of a `Decision` persists even when a later
  statement raises; `execute_decision` therefore returns the mutated
  decision alongside the `Except` outcome for the engine state.
-/

namespace Helios

/-- Sum-based mean, matching `np.mean` / `statistics.mean` (the source only
calls it on nonempty lists; on `[]` the ℚ convention `0 / 0 = 0` applies to
a dead branch). -/
def np_mean (l : List ℚ) : ℚ := l.sum / l.length

/-- Population variance, matching `np.var` (ddof = 0). -/
def np_var (l : List ℚ) : ℚ :=
  ((l.map (fun x => (x - np_mean l) ^ 2)).sum) / l.length

/-- Slope of the degree-1 least-squares fit of `np.polyfit(range(n), l, 1)`:
`(n·Σxy − Σx·Σy) / (n·Σx² − (Σx)²)` over sample indices `x = 0, …, n−1`. -/
def polyfit_slope (l : List ℚ) : ℚ :=
  let n : ℚ := l.length
  let ps := l.enum
  let sx : ℚ := (ps.map (fun p => (p.1 : ℚ))).sum
  let sy : ℚ := (ps.map (fun p => p.2)).sum
  let sxy : ℚ := (ps.map (fun p => (p.1 : ℚ) * p.2)).sum
  let sxx : ℚ := (ps.map (fun p => ((p.1 : ℚ)) ^ 2)).sum
  (n * sxy - sx * sy) / (n * sxx - sx ^ 2)

/-- Intercept of the same fit: `ȳ − slope·x̄`. -/
def polyfit_intercept (l : List ℚ) : ℚ :=
  let n : ℚ := l.length
  let ps := l.enum
  let sx : ℚ := (ps.map (fun p => (p.1 : ℚ))).sum
  let sy : ℚ := (ps.map (fun p => p.2)).sum
  (sy - polyfit_slope l * sx) / n

/-- Python's trailing slice `l[-n:]`. -/
def last_n (n : Nat) (l : List ℚ) : List ℚ := l.drop (l.length - n)

/-- Clamp written `min(1.0, max(0.0, x))` in the source. -/
def clampMinMax (x : ℚ) : ℚ := min 1 (max 0 x)

/-- Clamp written `max(0.0, min(1.0, x))` in the source. -/
def clampMaxMin (x : ℚ) : ℚ := max 0 (min 1 x)

/-- One element of the `recent_performance` argument of
`assess_current_state`, which accepts floats, dicts (whose values may or may
not be numeric) and arbitrary other objects. -/
inductive PerfItem where
  | num (x : ℚ)
  | dict (entries : List (String × Option ℚ))
  | other
  deriving DecidableEq

/-- First-match association-list lookup, the model of Python's
`key in d` / `d[key]` on insertion-ordered dicts. -/
def lookupAssoc {α : Type} : List (String × α) → String → Option α
  | [], _ => none
  | (k, a) :: t, key => if k = key then some a else lookupAssoc t key

/-- First value of a dict that is numeric (`for value in item.values(): if
isinstance(value, (int, float))`), if any. -/
def firstNumeric : List (String × Option ℚ) → Option ℚ
  | [] => none
  | (_, some x) :: _ => some x
  | (_, none) :: t => firstNumeric t

/-- Embeds `MetacognitiveEngine._extract_performance_values`. -/
def extract_performance_values : List PerfItem → List ℚ
  | [] => []
  | PerfItem.num x :: t => x :: extract_performance_values t
  | PerfItem.dict es :: t =>
    (match lookupAssoc es "accuracy" with
     | some (some a) => a
     | _ =>
       match lookupAssoc es "loss" with
       | some (some l) => max 0 (1 - l)
       | _ =>
         match lookupAssoc es "score" with
         | some (some sc) => sc
         | _ =>
           match firstNumeric es with
           | some x => x
           | none => 1 / 2) :: extract_performance_values t
  | PerfItem.other :: t => (1 / 2 : ℚ) :: extract_performance_values t

/-- Embeds `MetacognitiveEngine._calculate_confidence`; `std` abstracts
`np.std`, and `metrics` is the unused `current_metrics` parameter. -/
def calculate_confidence (std : List ℚ → ℚ) (metrics : List (String × ℚ))
    (vals : List ℚ) : ℚ :=
  if vals = [] then 1 / 2
  else
    let performance_std := if 1 < vals.length then std vals else 0
    let consistency_factor := max 0 (1 - performance_std)
    let trend_factor :=
      if 5 ≤ vals.length then max 0 (min 1 (1 / 2 + polyfit_slope vals))
      else (1 / 2 : ℚ)
    let current_performance := vals.getLast?.getD (1 / 2)
    let performance_factor := max 0 (min 1 current_performance)
    clampMaxMin
      (4 / 10 * performance_factor + 3 / 10 * consistency_factor +
        3 / 10 * trend_factor)

/-- Embeds `MetacognitiveEngine._predict_performance`.  With exact
arithmetic and ≥ 3 samples the least-squares fit cannot raise, so the
`except` fallback of the source is unreachable there. -/
def predict_performance (vals : List ℚ) (metrics : List (String × ℚ)) : ℚ :=
  if vals = [] then 1 / 2
  else if 3 ≤ vals.length then
    clampMaxMin (polyfit_slope vals * vals.length + polyfit_intercept vals)
  else np_mean (last_n 5 vals)

/-- Embeds `MetacognitiveEngine._estimate_uncertainty`. -/
def estimate_uncertainty (vals : List ℚ) (metrics : List (String × ℚ)) : ℚ :=
  if vals = [] then 1
  else
    let performance_variance := if 1 < vals.length then np_var vals else 0
    let prediction_error :=
      if 10 ≤ vals.length then
        let errors := (List.range (vals.length - 5)).map
          (fun k => |vals.getD (k + 5) 0 - np_mean ((vals.drop k).take 5)|)
        if errors = [] then 0 else np_mean errors
      else (0 : ℚ)
    min 1 (performance_variance + prediction_error)

/-- Helper for `dedupFirst`: drops names already seen. -/
def dedupFirstAux (seen : List String) : List String → List String
  | [] => []
  | x :: t =>
    if x ∈ seen then dedupFirstAux seen t
    else x :: dedupFirstAux (x :: seen) t

/-- The names appearing in a list, keeping first occurrences in order
(grouping order of the source's `metric_groups` dict). -/
def dedupFirst (l : List String) : List String := dedupFirstAux [] l

/-- Embeds `MetacognitiveEngine._identify_knowledge_gaps`.  The store query
`get_performance_metrics(model_name, hours=168)` is modelled by the
`stored` list of (metric name, value) pairs; gap messages are abstracted to
the metric name they report. -/
def identify_knowledge_gaps (stored : List (String × ℚ))
    (metrics : List (String × ℚ)) : List String :=
  let gaps1 := (metrics.filter (fun p => p.2 < 6 / 10)).map (fun p => p.1)
  let names := dedupFirst (stored.map (fun p => p.1))
  let gaps2 := (names.filter (fun n =>
    let values := (stored.filter (fun p => p.1 = n)).map (fun p => p.2)
    5 ≤ values.length ∧ np_mean values < 1 / 2)).map (fun n => n)
  gaps1 ++ gaps2

inductive LearningStrategy where
  | conservative
  | balanced
  | aggressive
  | adaptive
  | active_learning
  deriving DecidableEq

/-- The `.value` string of a `LearningStrategy`. -/
def strategyName : LearningStrategy → String
  | .conservative => "conservative"
  | .balanced => "balanced"
  | .aggressive => "aggressive"
  | .adaptive => "adaptive"
  | .active_learning => "active_learning"

/-- Embeds `MetacognitiveEngine._recommend_learning_strategy`.  The Python
fall-through of the `if len >= 10` block is the conjunction in the third
branch; the variance check guards on `len > 5` and takes the trailing
`[-10:]` window. -/
def recommend_learning_strategy (confidence uncertainty : ℚ)
    (vals : List ℚ) : LearningStrategy :=
  if 8 / 10 < confidence ∧ uncertainty < 2 / 10 then .conservative
  else if confidence < 4 / 10 ∧ 6 / 10 < uncertainty then .aggressive
  else if 10 ≤ vals.length ∧ |polyfit_slope (last_n 10 vals)| < 1 / 1000 then
    .aggressive
  else if 5 < vals.length ∧ 1 / 10 < np_var (last_n 10 vals) then
    .conservative
  else .balanced

/-- Context dictionaries (`Dict[str, Any]`), abstracted to string pairs. -/
def Ctx : Type := List (String × String)

instance : DecidableEq Ctx := by unfold Ctx; infer_instance

/-- Embeds the `MetacognitiveAssessment` dataclass (the timestamp is not
modelled). -/
structure Assessment where
  confidence_score : ℚ
  predicted_performance : ℚ
  uncertainty_estimate : ℚ
  knowledge_gaps : List String
  recommended_strategy : LearningStrategy
  context : Ctx
  deriving DecidableEq

/-- Embeds `MetacognitiveEngine.assess_current_state`.  It returns the
assessment together with the journal event types written; the final
`_store_assessment` write raises when `jOk = false` and the source has no
try/except around it, so the error propagates. -/
def assess_current_state (std : List ℚ → ℚ) (jOk : Bool)
    (stored : List (String × ℚ)) (model_name : String)
    (metrics : List (String × ℚ)) (rp : List PerfItem) (ctx : Ctx) :
    Except String (Assessment × List String) :=
  let vals := extract_performance_values rp
  let confidence := calculate_confidence std metrics vals
  let predicted := predict_performance vals metrics
  let uncertainty := estimate_uncertainty vals metrics
  let gaps := identify_knowledge_gaps stored metrics
  let strategy := recommend_learning_strategy confidence uncertainty vals
  let a : Assessment :=
    { confidence_score := confidence
      predicted_performance := predicted
      uncertainty_estimate := uncertainty
      knowledge_gaps := gaps
      recommended_strategy := strategy
      context := ctx }
  if jOk then .ok (a, ["self_assessment"]) else .error "journal_failure"

/-- Embeds `MetacognitiveEngine._recommend_learning_rate` (base rate and
decay factor). -/
def recommend_learning_rate : LearningStrategy → ℚ × ℚ
  | .aggressive => (1 / 500, 9 / 10)
  | .conservative => (1 / 2000, 99 / 100)
  | _ => (1 / 1000, 19 / 20)

inductive DecisionType where
  | parameter_adjustment
  | strategy_change
  | resource_allocation
  | goal_prioritization
  | training_schedule
  | evaluation_trigger
  deriving DecidableEq

inductive DecisionPriority where
  | critical
  | high
  | medium
  | low
  deriving DecidableEq

/-- The integer `.value` of a `DecisionPriority` (the sort key). -/
def priorityValue : DecisionPriority → Nat
  | .critical => 1
  | .high => 2
  | .medium => 3
  | .low => 4

inductive DecisionStatus where
  | pending
  | executing
  | completed
  | failed
  | cancelled
  deriving DecidableEq

/-- The `parameters` dict of a `Decision`.  The engine only ever builds
single-key dicts; each constructor models one of them. -/
inductive DParams where
  | lrAdjust (base_rate decay_factor : ℚ)
  | batchSize (multiplier : ℚ)
  | newStrategy (strategy : String)
  | recommendedStrategy (strategy : String)
  | evalFrequency (freq : Int)
  | goalOrder (ids : List String)
  | empty
  deriving DecidableEq

/-- The `result` dict of an executed `Decision`, abstracted to its
`status` key (`applied`, `not_implemented`, or the captured error). -/
inductive DResult where
  | applied
  | notImplemented
  | error (msg : String)
  deriving DecidableEq

/-- Embeds the `Decision` dataclass (timestamps, the free-text rationale
and the context dict are not modelled; the id's timestamp suffix is
dropped). -/
structure Decision where
  decision_id : String
  decision_type : DecisionType
  priority : DecisionPriority
  parameters : DParams
  expected_impact : ℚ
  confidence : ℚ
  status : DecisionStatus := .pending
  result : Option DResult := none
  deriving DecidableEq

/-- Embeds the `Goal` dataclass.  `deadline` abstracts the datetime field
to the `days_left` value the source would derive from it at decision time
(`none` = no deadline). -/
structure Goal where
  goal_id : String
  name : String
  target_metric : String
  target_value : ℚ
  current_value : ℚ
  priority : Int
  deadline : Option Int := none
  dependencies : List String := []
  progress : ℚ := 0
  active : Bool := true
  deriving DecidableEq

/-- Embeds the `ResourceAllocation` dataclass. -/
structure ResourceAllocation where
  compute_priority : ℚ
  memory_allocation : ℚ
  io_bandwidth : ℚ
  evaluation_frequency : Int
  parallel_jobs : Int
  deriving DecidableEq

/-- The mutable state of a `DecisionEngine` together with the shared
memory store: `stored_metrics` models the store's queryable metric
history, `journal` the trace of accepted journal / metric writes (event
types, in order). -/
structure EngineState where
  pending_decisions : List Decision := []
  active_goals : List (String × Goal) := []
  decision_history : List Decision := []
  max_concurrent_decisions : Nat := 3
  decision_confidence_threshold : ℚ := 6 / 10
  goal_progress_threshold : ℚ := 1 / 10
  base_resources : ResourceAllocation :=
    { compute_priority := 1, memory_allocation := 1, io_bandwidth := 1
      evaluation_frequency := 100, parallel_jobs := 1 }
  autonomous_mode : Bool := false
  stored_metrics : List (String × ℚ) := []
  journal : List String := []
  deriving DecidableEq

/-- The freshly initialised engine of `DecisionEngine.__init__`. -/
def initEngine : EngineState := {}

/-- One write through `memory_store.store_enhanced_journal_entry` (or
`store_performance_metric`): accepted and traced when `jOk`, raising
otherwise. -/
def storeJournal (jOk : Bool) (s : EngineState) (event : String) :
    Except String EngineState :=
  if jOk then .ok { s with journal := s.journal ++ [event] }
  else .error "journal_failure"

/-- First-match lookup in the `active_goals` dict. -/
def lookupGoal : List (String × Goal) → String → Option Goal
  | [], _ => none
  | (k, g) :: t, key => if k = key then some g else lookupGoal t key

/-- In-place mutation of the goal stored under a key (first match; no-op
when the key is absent). -/
def modifyGoal : List (String × Goal) → String → (Goal → Goal) →
    List (String × Goal)
  | [], _, _ => []
  | (k, g) :: t, key, f =>
    if k = key then (k, f g) :: t else (k, g) :: modifyGoal t key f

/-- The dependent-goal priority boost of
`_trigger_goal_completion_decisions`: each listed dependency present in
`active_goals` gets `priority = max(1, priority - 1)`. -/
def boostDeps (deps : List String) (goals : List (String × Goal)) :
    List (String × Goal) :=
  deps.foldl
    (fun gs d => modifyGoal gs d (fun g => { g with priority := max 1 (g.priority - 1) }))
    goals

/-- Embeds `DecisionEngine._trigger_goal_completion_decisions`: boost the
dependents, then journal the `goal_completed` entry. -/
def trigger_goal_completion_decisions (jOk : Bool) (s : EngineState)
    (completed_goal : Goal) : Except String EngineState :=
  storeJournal jOk
    { s with active_goals := boostDeps completed_goal.dependencies s.active_goals }
    "goal_completed"

/-- Embeds `DecisionEngine.add_goal`. -/
def add_goal (jOk : Bool) (s : EngineState) (goal : Goal) :
    Except String (Bool × EngineState) :=
  match lookupGoal s.active_goals goal.goal_id with
  | some _ => .ok (false, s)
  | none =>
    match storeJournal jOk
        { s with active_goals := s.active_goals ++ [(goal.goal_id, goal)] }
        "goal_added" with
    | .error e => .error e
    | .ok s1 => .ok (true, s1)

/-- Embeds `DecisionEngine.update_goal_progress`.  Progress is recomputed
as `min(1.0, max(0.0, (v − old)/(target − old)))` only when
`target_value ≠ old_value`; reaching `progress ≥ 1.0` deactivates the goal
and fires the completion trigger before the progress-update journal
write. -/
def update_goal_progress (jOk : Bool) (s : EngineState) (goal_id : String)
    (current_value : ℚ) : Except String (Bool × EngineState) :=
  match lookupGoal s.active_goals goal_id with
  | none => .ok (false, s)
  | some goal =>
    let old_value := goal.current_value
    let g1 : Goal := { goal with current_value := current_value }
    let g2 : Goal :=
      if goal.target_value ≠ old_value then
        { g1 with progress :=
            clampMinMax ((current_value - old_value) / (goal.target_value - old_value)) }
      else g1
    if 1 ≤ g2.progress then
      let g3 : Goal := { g2 with active := false }
      let s1 := { s with active_goals := modifyGoal s.active_goals goal_id (fun _ => g3) }
      match trigger_goal_completion_decisions jOk s1 g3 with
      | .error e => .error e
      | .ok s2 =>
        match storeJournal jOk s2 "goal_progress_update" with
        | .error e => .error e
        | .ok s3 => .ok (true, s3)
    else
      let s1 := { s with active_goals := modifyGoal s.active_goals goal_id (fun _ => g2) }
      match storeJournal jOk s1 "goal_progress_update" with
      | .error e => .error e
      | .ok s2 => .ok (true, s2)

/-- Number of keys of a `parameters` dict (every dict the engine builds has
exactly one key; `empty` models `{}`). -/
def paramKeyCount : DParams → Nat
  | .empty => 0
  | _ => 1

/-- Embeds `DecisionEngine._execute_parameter_adjustment`: one
`store_performance_metric` write per parameter key, then an `applied`
result. -/
def execute_parameter_adjustment (jOk : Bool) (s : EngineState)
    (d : Decision) : Except String (DResult × EngineState) :=
  match paramKeyCount d.parameters with
  | 0 => .ok (.applied, s)
  | _ =>
    match storeJournal jOk s "perf_metric" with
    | .error e => .error e
    | .ok s1 => .ok (.applied, s1)

/-- Embeds `DecisionEngine._execute_strategy_change`: journals the change
and reports `applied`. -/
def execute_strategy_change (jOk : Bool) (s : EngineState)
    (d : Decision) : Except String (DResult × EngineState) :=
  match storeJournal jOk s "strategy_change" with
  | .error e => .error e
  | .ok s1 => .ok (.applied, s1)

/-- Embeds `DecisionEngine._execute_resource_allocation`: `setattr` on the
matching `base_resources` field (the engine only ever allocates
`evaluation_frequency`). -/
def applyAllocation (r : ResourceAllocation) : DParams → ResourceAllocation
  | .evalFrequency f => { r with evaluation_frequency := f }
  | _ => r

/-- Embeds `DecisionEngine._execute_goal_prioritization`: the i-th goal of
the order (present in `active_goals`) gets priority `i + 1`. -/
def applyGoalOrder (goals : List (String × Goal)) : DParams →
    List (String × Goal)
  | .goalOrder ids =>
    ids.enum.foldl
      (fun gs p => modifyGoal gs p.2 (fun g => { g with priority := (p.1 : Int) + 1 }))
      goals
  | _ => goals

/-- The type dispatch inside `DecisionEngine._execute_decision`'s `try`
block: the four handled types run their handler, the unhandled types
(`training_schedule`, `evaluation_trigger`) yield
`{status: not_implemented}` without touching anything. -/
def runHandler (jOk : Bool) (s : EngineState) (d : Decision) :
    Except String (DResult × EngineState) :=
  match d.decision_type with
  | .parameter_adjustment => execute_parameter_adjustment jOk s d
  | .strategy_change => execute_strategy_change jOk s d
  | .resource_allocation =>
    .ok (.applied, { s with base_resources := applyAllocation s.base_resources d.parameters })
  | .goal_prioritization =>
    .ok (.applied, { s with active_goals := applyGoalOrder s.active_goals d.parameters })
  | .training_schedule => .ok (.notImplemented, s)
  | .evaluation_trigger => .ok (.notImplemented, s)

/-- Embeds `DecisionEngine._store_decision_result` (a journal write; note
it is called outside the handler's try/except in the source). -/
def store_decision_result (jOk : Bool) (s : EngineState) (d : Decision) :
    Except String EngineState :=
  storeJournal jOk s "decision_result"

/-- Embeds `DecisionEngine._execute_decision`.  The returned `Decision` is
the in-place mutated object (status/result set before any possible raise
of `_store_decision_result`, which sits outside the try/except), paired
with the engine-state outcome: on success the decision is appended to the
history, on a journal failure the error propagates and the history append
never happens. -/
def execute_decision (jOk : Bool) (s : EngineState) (d : Decision) :
    Decision × Except String EngineState :=
  let d1 : Decision := { d with status := .executing }
  match runHandler jOk s d1 with
  | .ok (res, s1) =>
    let d2 : Decision := { d1 with result := some res, status := .completed }
    (d2,
      match store_decision_result jOk s1 d2 with
      | .error e => .error e
      | .ok s2 => .ok { s2 with decision_history := s2.decision_history ++ [d2] })
  | .error e =>
    let d2 : Decision := { d1 with status := .failed, result := some (.error e) }
    (d2,
      match store_decision_result jOk s d2 with
      | .error e2 => .error e2
      | .ok s2 => .ok { s2 with decision_history := s2.decision_history ++ [d2] })

/-- Removes the first pending decision with the given id (the model of
`pending_decisions.remove(decision)`; ids generated by the engine are
unique, so removal by id coincides with removal by dataclass equality). -/
def eraseById : List Decision → String → List Decision
  | [], _ => []
  | d :: t, i => if d.decision_id = i then t else d :: eraseById t i

/-- Stable ascending sort by `priority.value`.  As the key takes only the
four values 1..4, a stable sort is exactly the concatenation of the equal-
key groups in key order. -/
def sortByPriority (l : List Decision) : List Decision :=
  l.filter (fun d => d.priority = .critical) ++
  (l.filter (fun d => d.priority = .high) ++
  (l.filter (fun d => d.priority = .medium) ++
  l.filter (fun d => d.priority = .low)))

/-- The execution loop of `_execute_pending_decisions`: each candidate
whose confidence passes the threshold is executed and removed from the
pending queue; the others are skipped. -/
def exec_loop (jOk : Bool) : List Decision → EngineState → List Decision →
    Except String (List Decision × EngineState)
  | [], s, acc => .ok (acc, s)
  | d :: rest, s, acc =>
    if s.decision_confidence_threshold ≤ d.confidence then
      match execute_decision jOk s d with
      | (d2, .ok s1) =>
        exec_loop jOk rest
          { s1 with pending_decisions := eraseById s1.pending_decisions d.decision_id }
          (acc ++ [d2])
      | (_, .error e) => .error e
    else exec_loop jOk rest s acc

/-- Embeds `DecisionEngine._execute_pending_decisions`: sort the pending
queue by priority ascending, keep only Critical/High decisions, take at
most `max_concurrent_decisions` of them and run the confidence-gated
execution loop.  Returns the executed decisions (the history delta) with
the new state. -/
def execute_pending_decisions (jOk : Bool) (s : EngineState) :
    Except String (List Decision × EngineState) :=
  let sorted := sortByPriority s.pending_decisions
  let s0 := { s with pending_decisions := sorted }
  let high_priority := sorted.filter
    (fun d => d.priority = .critical ∨ d.priority = .high)
  exec_loop jOk (high_priority.take s.max_concurrent_decisions) s0 []

/-- A freshly synthesised decision (`status = PENDING`, `result = None`). -/
def mkDecision (id : String) (ty : DecisionType) (prio : DecisionPriority)
    (params : DParams) (impact confidence : ℚ) : Decision :=
  { decision_id := id, decision_type := ty, priority := prio
    parameters := params, expected_impact := impact, confidence := confidence }

/-- Embeds `MetacognitiveEngine.get_learning_recommendations`, restricted
to the `learning_rate_adjustment` entry the decision engine consumes; the
recommendations are journaled (and the write can raise). -/
def get_learning_recommendations (jOk : Bool) (s : EngineState)
    (a : Assessment) : Except String ((ℚ × ℚ) × EngineState) :=
  let lr := recommend_learning_rate a.recommended_strategy
  match storeJournal jOk s "metacognitive_recommendations" with
  | .error e => .error e
  | .ok s1 => .ok (lr, s1)

/-- Embeds `DecisionEngine._make_parameter_decisions`. -/
def make_parameter_decisions (jOk : Bool) (s : EngineState)
    (a : Assessment) (current_metrics : List (String × ℚ)) :
    Except String (List Decision × EngineState) :=
  match (if a.confidence_score < 4 / 10 ∨ 7 / 10 < a.uncertainty_estimate then
      match get_learning_recommendations jOk s a with
      | .error e => .error e
      | .ok (lr, s1) =>
        .ok ([mkDecision "lr_adjust" .parameter_adjustment .high
                (.lrAdjust lr.1 lr.2) (3 / 10) a.confidence_score], s1)
    else .ok ([], s) : Except String (List Decision × EngineState)) with
  | .error e => .error e
  | .ok (ds1, s1) =>
    let ds2 :=
      match lookupAssoc current_metrics "training_stability" with
      | some stability =>
        if stability < 1 / 2 then
          [mkDecision "batch_adjust" .parameter_adjustment .medium
            (.batchSize (if stability < 3 / 10 then 3 / 2 else 6 / 5))
            (2 / 10) (7 / 10)]
        else []
      | none => []
    .ok (ds1 ++ ds2, s1)

/-- Embeds `DecisionEngine._make_strategy_decisions` (pure). -/
def make_strategy_decisions (a : Assessment)
    (recent_performance : List ℚ) : List Decision :=
  (if 10 ≤ recent_performance.length ∧
      |polyfit_slope (last_n 10 recent_performance)| < 1 / 1000 then
    [mkDecision "strategy_change" .strategy_change .high
      (.newStrategy "aggressive_exploration") (4 / 10) (8 / 10)]
  else []) ++
  (if a.recommended_strategy ≠ .balanced then
    [mkDecision "strategy_align" .strategy_change .medium
      (.recommendedStrategy (strategyName a.recommended_strategy))
      (25 / 100) a.confidence_score]
  else [])

/-- Embeds `DecisionEngine._make_resource_decisions` (pure; the two rules
are mutually exclusive `if`/`elif`). -/
def make_resource_decisions (a : Assessment) (r : ResourceAllocation) :
    List Decision :=
  if 7 / 10 < a.uncertainty_estimate then
    [mkDecision "eval_freq" .resource_allocation .medium
      (.evalFrequency (max 50 (r.evaluation_frequency / 2))) (15 / 100) (7 / 10)]
  else if 8 / 10 < a.confidence_score then
    [mkDecision "eval_freq" .resource_allocation .low
      (.evalFrequency (min 200 (r.evaluation_frequency * 2))) (1 / 10) (8 / 10)]
  else []

/-- The per-goal body of `_make_goal_decisions`'s loop: update progress
when the goal's target metric is reported, then score the (refreshed) goal
by priority, remaining progress and deadline urgency. -/
def goal_decision_loop (jOk : Bool) (current_metrics : List (String × ℚ)) :
    List (String × Goal) → EngineState → List (String × ℚ) →
    Except String (EngineState × List (String × ℚ))
  | [], s, acc => .ok (s, acc)
  | (gid, g0) :: rest, s, acc =>
    match (match lookupAssoc current_metrics g0.target_metric with
      | some v =>
        match update_goal_progress jOk s gid v with
        | .error e => .error e
        | .ok (_, s1) => .ok s1
      | none => .ok s : Except String EngineState) with
    | .error e => .error e
    | .ok s1 =>
      let g := (lookupGoal s1.active_goals gid).getD g0
      let urgency : ℚ :=
        match g.deadline with
        | none => 1
        | some days_left => max (1 / 10) (1 / ((max 1 days_left : Int) : ℚ))
      let score := (g.priority : ℚ) * (3 / 10) + (1 - g.progress) * (4 / 10) +
        urgency * (3 / 10)
      goal_decision_loop jOk current_metrics rest s1 (acc ++ [(gid, score)])

/-- Stable descending insertion by score (`sort(key=…, reverse=True)` is
stable, so ties keep their original order). -/
def insertByScoreDesc (x : String × ℚ) : List (String × ℚ) →
    List (String × ℚ)
  | [] => [x]
  | y :: ys => if y.2 ≤ x.2 then x :: y :: ys else y :: insertByScoreDesc x ys

/-- Stable descending sort used on the goal priority scores. -/
def sortByScoreDesc (l : List (String × ℚ)) : List (String × ℚ) :=
  l.foldr insertByScoreDesc []

/-- Embeds `DecisionEngine._make_goal_decisions`. -/
def make_goal_decisions (jOk : Bool) (s : EngineState)
    (current_metrics : List (String × ℚ)) :
    Except String (List Decision × EngineState) :=
  let actives := s.active_goals.filter (fun p => p.2.active)
  if actives.isEmpty then .ok ([], s)
  else
    match goal_decision_loop jOk current_metrics actives s [] with
    | .error e => .error e
    | .ok (s1, scores) =>
      let ordered := sortByScoreDesc scores
      if 1 < ordered.length then
        .ok ([mkDecision "goal_priority" .goal_prioritization .medium
                (.goalOrder (ordered.map (fun p => p.1))) (2 / 10) (6 / 10)], s1)
      else .ok ([], s1)

/-- Embeds `DecisionEngine.make_autonomous_decision`.  Returns immediately
with `[]` and an untouched state when autonomous mode is off; otherwise it
assesses once, runs the four synthesis rule-sets, appends everything to the
pending queue, executes eligible pending decisions, and returns the
synthesised decisions (refreshed with their executed versions, as the
source returns the mutated objects). -/
def make_autonomous_decision (std : List ℚ → ℚ) (jOk : Bool)
    (model_name : String) (current_metrics : List (String × ℚ))
    (recent_performance : List ℚ) (ctx : Ctx) (s : EngineState) :
    Except String (List Decision × EngineState) :=
  if s.autonomous_mode then
    match assess_current_state std jOk s.stored_metrics model_name
        current_metrics (recent_performance.map PerfItem.num) ctx with
    | .error e => .error e
    | .ok (assessment, written) =>
      let s1 := { s with journal := s.journal ++ written }
      match make_parameter_decisions jOk s1 assessment current_metrics with
      | .error e => .error e
      | .ok (param_ds, s2) =>
        let strategy_ds := make_strategy_decisions assessment recent_performance
        let resource_ds := make_resource_decisions assessment s2.base_resources
        match make_goal_decisions jOk s2 current_metrics with
        | .error e => .error e
        | .ok (goal_ds, s3) =>
          let decisions := param_ds ++ strategy_ds ++ resource_ds ++ goal_ds
          let s4 := { s3 with pending_decisions := s3.pending_decisions ++ decisions }
          match execute_pending_decisions jOk s4 with
          | .error e => .error e
          | .ok (executed, s5) =>
            let refreshed := decisions.map (fun d =>
              (executed.find? (fun e => e.decision_id == d.decision_id)).getD d)
            .ok (refreshed, s5)
  else .ok ([], s)

/-! Specification helpers and concrete instances used by the theorems. -/

/-- The progress value `update_goal_progress` leaves on a found goal: the
clamped interpolation when `target_value` differs from the previous
`current_value`, the previous progress otherwise. -/
def newProgress (g : Goal) (v : ℚ) : ℚ :=
  if g.target_value ≠ g.current_value then
    clampMinMax ((v - g.current_value) / (g.target_value - g.current_value))
  else g.progress

/-- The fields of a goal other than its priority (the completion trigger
only rewrites priorities). -/
def projNP (g : Goal) : ℚ × ℚ × ℚ × Bool × List String :=
  (g.progress, g.current_value, g.target_value, g.active, g.dependencies)

/-- The goal record after `update_goal_progress` rewrites value and
progress (before the completion check). -/
def updatedGoal (g : Goal) (v : ℚ) : Goal :=
  { g with current_value := v, progress := newProgress g v }

/-- The goal record after deactivation on completion. -/
def completedGoal (g : Goal) (v : ℚ) : Goal :=
  { updatedGoal g v with active := false }

/-- The result an executed decision of each type receives when no journal
write fails inside its handler. -/
def handlerResultFor (d : Decision) : DResult :=
  match d.decision_type with
  | .training_schedule => .notImplemented
  | .evaluation_trigger => .notImplemented
  | _ => .applied

/-- The strategy cascade exactly as the claim states it, reading both
"trailing-10-sample" statistics as requiring ten samples to exist. -/
def claimed_strategy_rule (confidence uncertainty : ℚ)
    (vals : List ℚ) : LearningStrategy :=
  if 8 / 10 < confidence ∧ uncertainty < 2 / 10 then .conservative
  else if confidence < 4 / 10 ∧ 6 / 10 < uncertainty then .aggressive
  else if 10 ≤ vals.length ∧ |polyfit_slope (last_n 10 vals)| < 1 / 1000 then
    .aggressive
  else if 10 ≤ vals.length ∧ 1 / 10 < np_var (last_n 10 vals) then
    .conservative
  else .balanced

/-- The claim's cascade amended to what the source does: the variance rule
already applies once more than five samples exist, over the trailing
`min(10, n)` samples; the trend rule still requires ten. -/
def amended_strategy_rule (confidence uncertainty : ℚ)
    (vals : List ℚ) : LearningStrategy :=
  if 8 / 10 < confidence ∧ uncertainty < 2 / 10 then .conservative
  else if confidence < 4 / 10 ∧ 6 / 10 < uncertainty then .aggressive
  else if 10 ≤ vals.length ∧ |polyfit_slope (last_n 10 vals)| < 1 / 1000 then
    .aggressive
  else if 5 < vals.length ∧ 1 / 10 < np_var (last_n 10 vals) then
    .conservative
  else .balanced

/-- Stand-in for `np.std` in closed evaluations whose histories have at
most one sample, where the source never applies it. -/
def noStd : List ℚ → ℚ := fun _ => 0

/-- Decidable equality of `Except` outcomes, used to evaluate the model at
concrete inputs. -/
instance exceptDecEq {ε α : Type} [DecidableEq ε] [DecidableEq α] :
    DecidableEq (Except ε α) := fun a b =>
  match a, b with
  | .ok x, .ok y =>
    if h : x = y then isTrue (by rw [h])
    else isFalse (fun hh => h (by injection hh))
  | .error x, .error y =>
    if h : x = y then isTrue (by rw [h])
    else isFalse (fun hh => h (by injection hh))
  | .ok _, .error _ => isFalse (fun hh => Except.noConfusion hh)
  | .error _, .ok _ => isFalse (fun hh => Except.noConfusion hh)

/-- Concrete goal for the C1 instances: target 10, starting at 0. -/
def c1_goal : Goal :=
  { goal_id := "g", name := "G", target_metric := "acc"
    target_value := 10, current_value := 0, priority := 3 }

def c1_state : EngineState := { initEngine with active_goals := [("g", c1_goal)] }

/-- Concrete goals for the C3 counterexample: "g" lists "d" as dependency. -/
def c3_goal_g : Goal :=
  { goal_id := "g", name := "G", target_metric := "acc"
    target_value := 10, current_value := 0, priority := 2, dependencies := ["d"] }

def c3_goal_d : Goal :=
  { goal_id := "d", name := "D", target_metric := "loss"
    target_value := 5, current_value := 0, priority := 3 }

def c3_state : EngineState :=
  { initEngine with active_goals := [("g", c3_goal_g), ("d", c3_goal_d)] }

/-- An already-completed (inactive) goal for the C3 witness.  Its stored
value 11 overshoots the target 10, so a further update to 9 recomputes
progress as `clamp((9−11)/(10−11)) = 1` — the recomputed-progress
retrigger path. -/
def c3w_goal : Goal :=
  { goal_id := "g", name := "G", target_metric := "acc"
    target_value := 10, current_value := 11, priority := 2
    dependencies := ["d"], progress := 1, active := false }

/-- A dependent goal of `c3w_goal`, boosted again on each retrigger. -/
def c3w_dep : Goal :=
  { goal_id := "d", name := "D", target_metric := "loss"
    target_value := 5, current_value := 0, priority := 3 }

def c3w_state : EngineState :=
  { initEngine with active_goals := [("g", c3w_goal), ("d", c3w_dep)] }

/-- A goal whose target equals its current value, for the C10 witness. -/
def c10_goal : Goal :=
  { goal_id := "g", name := "G", target_metric := "acc"
    target_value := 5, current_value := 5, priority := 1, progress := 3 / 10 }

def c10_state : EngineState := { initEngine with active_goals := [("g", c10_goal)] }

/-- The assessment produced on an empty history with no metrics (C4
witness). -/
def c4w_assessment : Assessment :=
  { confidence_score := 1 / 2, predicted_performance := 1 / 2
    uncertainty_estimate := 1, knowledge_gaps := []
    recommended_strategy := .balanced, context := [] }

/-- An unhandled-type decision used by the C2 instance. -/
def c2_decision : Decision :=
  mkDecision "ts" .training_schedule .high .empty (1 / 10) (9 / 10)

/-- An unhandled-type decision used by the C8 witness. -/
def c8_decision : Decision :=
  mkDecision "ev" .evaluation_trigger .high .empty (1 / 10) (9 / 10)

/-- Pending decisions with the four priorities for the C6 witness. -/
def c6_d1 : Decision := mkDecision "a" .training_schedule .critical .empty 0 (9 / 10)

def c6_d2 : Decision := mkDecision "b" .training_schedule .high .empty 0 (1 / 2)

def c6_d3 : Decision := mkDecision "c" .training_schedule .high .empty 0 (7 / 10)

def c6_d4 : Decision := mkDecision "d" .training_schedule .medium .empty 0 (9 / 10)

def c6_state : EngineState :=
  { initEngine with pending_decisions := [c6_d4, c6_d2, c6_d3, c6_d1] }

/-! Helper lemmas. -/

lemma clampMaxMin_nonneg (x : ℚ) : 0 ≤ clampMaxMin x := le_max_left 0 _

lemma clampMaxMin_le_one (x : ℚ) : clampMaxMin x ≤ 1 :=
  max_le (by norm_num) (min_le_left 1 x)

lemma clampMinMax_nonneg (x : ℚ) : 0 ≤ clampMinMax x :=
  le_min (by norm_num) (le_max_left 0 x)

lemma clampMinMax_le_one (x : ℚ) : clampMinMax x ≤ 1 := min_le_left 1 _

lemma np_mean_nonneg {l : List ℚ} (h : ∀ x ∈ l, 0 ≤ x) : 0 ≤ np_mean l :=
  div_nonneg (List.sum_nonneg h) (Nat.cast_nonneg l.length)

lemma np_var_nonneg (l : List ℚ) : 0 ≤ np_var l := by
  refine div_nonneg (List.sum_nonneg ?_) (Nat.cast_nonneg l.length)
  intro x hx
  obtain ⟨y, _, rfl⟩ := List.mem_map.mp hx
  exact sq_nonneg _

lemma calculate_confidence_bounds (std : List ℚ → ℚ)
    (metrics : List (String × ℚ)) (vals : List ℚ) :
    0 ≤ calculate_confidence std metrics vals ∧
      calculate_confidence std metrics vals ≤ 1 := by
  unfold calculate_confidence
  split
  · norm_num
  · exact ⟨clampMaxMin_nonneg _, clampMaxMin_le_one _⟩

lemma estimate_uncertainty_bounds (vals : List ℚ)
    (metrics : List (String × ℚ)) :
    0 ≤ estimate_uncertainty vals metrics ∧
      estimate_uncertainty vals metrics ≤ 1 := by
  unfold estimate_uncertainty
  split
  · norm_num
  · constructor
    · refine le_min (by norm_num) (add_nonneg ?_ ?_)
      · split
        · exact np_var_nonneg _
        · exact le_refl 0
      · split
        · dsimp only
          split
          · exact le_refl 0
          · refine np_mean_nonneg ?_
            intro x hx
            obtain ⟨k, _, rfl⟩ := List.mem_map.mp hx
            exact abs_nonneg _
        · exact le_refl 0
    · exact min_le_left 1 _

lemma predict_performance_bounds (vals : List ℚ)
    (metrics : List (String × ℚ))
    (h : vals.length = 0 ∨ 3 ≤ vals.length) :
    0 ≤ predict_performance vals metrics ∧
      predict_performance vals metrics ≤ 1 := by
  unfold predict_performance
  rcases h with h | h
  · rw [List.length_eq_zero] at h
    simp only [h, if_pos rfl]
    norm_num
  · have hne : ¬ vals = [] := by
      intro he
      rw [he] at h
      simp at h
    simp only [if_neg hne, if_pos h]
    exact ⟨clampMaxMin_nonneg _, clampMaxMin_le_one _⟩

/-! The claims. -/

/-- C2: the claim says journal failures are swallowed at the engine
boundary; the code has no try/except around `_store_assessment` or around
the `_store_decision_result` call of `_execute_decision`.  On a failing
store, `assess_current_state` raises instead of returning its assessment,
and an executed decision's status transition happens (the mutation
precedes the raise) but its move to history does not — the error
propagates.  This theorem exhibits both divergences on concrete inputs. -/
theorem c2_journal_failure_propagates :
    assess_current_state noStd false [] "m" [] [] [] = .error "journal_failure" ∧
    (execute_decision false initEngine c2_decision).1.status = DecisionStatus.completed ∧
    (execute_decision false initEngine c2_decision).1.result = some DResult.notImplemented ∧
    (execute_decision false initEngine c2_decision).2 = .error "journal_failure" :=
  ⟨rfl, rfl, rfl, rfl⟩

/-- C7: on an empty performance history, `assess_current_state` (with a
working store) returns the neutral confidence 0.5 and the maximal
uncertainty 1.0, for every model name, metric map, stored history and
context. -/
theorem c7_empty_history_neutral (std : List ℚ → ℚ)
    (stored : List (String × ℚ)) (model_name : String)
    (metrics : List (String × ℚ)) (ctx : Ctx) :
    (assess_current_state std true stored model_name metrics [] ctx).map
      (fun p => (p.1.confidence_score, p.1.uncertainty_estimate)) =
      .ok (1 / 2, 1) := by
  simp [assess_current_state, extract_performance_values,
    calculate_confidence, estimate_uncertainty, Except.map]

/-- C8: executing a decision whose type has no matching handler
(`training_schedule` or `evaluation_trigger`) sets the result to
`not_implemented` and transitions the decision to Completed, never Failed
— regardless of whether the journal write afterwards succeeds. -/
theorem c8_not_implemented_completes (jOk : Bool) (s : EngineState)
    (d : Decision)
    (h : d.decision_type = DecisionType.training_schedule ∨
      d.decision_type = DecisionType.evaluation_trigger) :
    (execute_decision jOk s d).1.result = some DResult.notImplemented ∧
    (execute_decision jOk s d).1.status = DecisionStatus.completed ∧
    (execute_decision jOk s d).1.status ≠ DecisionStatus.failed := by
  rcases h with h | h <;> cases jOk <;>
    simp [execute_decision, runHandler, h, store_decision_result, storeJournal]

theorem c8_not_implemented_completes_witness :
    (c8_decision.decision_type = DecisionType.training_schedule ∨
      c8_decision.decision_type = DecisionType.evaluation_trigger) ∧
    ((execute_decision true initEngine c8_decision).1.result = some DResult.notImplemented ∧
     (execute_decision true initEngine c8_decision).1.status = DecisionStatus.completed ∧
     (execute_decision true initEngine c8_decision).1.status ≠ DecisionStatus.failed) :=
  ⟨Or.inr rfl,
    c8_not_implemented_completes true initEngine c8_decision (Or.inr rfl)⟩

/-- C9: with autonomous mode off, `make_autonomous_decision` returns the
empty list and the exact same engine state — no assessment is performed,
nothing is journaled, and no engine field changes. -/
theorem c9_autonomous_off_noop (std : List ℚ → ℚ) (jOk : Bool)
    (model_name : String) (metrics : List (String × ℚ))
    (recent_performance : List ℚ) (ctx : Ctx) (s : EngineState)
    (h : s.autonomous_mode = false) :
    make_autonomous_decision std jOk model_name metrics recent_performance
      ctx s = .ok ([], s) := by
  simp [make_autonomous_decision, h]

theorem c9_autonomous_off_noop_witness :
    initEngine.autonomous_mode = false ∧
    make_autonomous_decision noStd true "m" [] [] [] initEngine =
      .ok ([], initEngine) :=
  ⟨rfl, c9_autonomous_off_noop noStd true "m" [] [] [] initEngine rfl⟩

/-- C4 counterexample: on the single-sample history `[2.0]`, the
assessment's `predicted_performance` equals the unclamped mean 2.0, which
is not in `[0, 1]` — refuting the claim that all three scores always lie
in `[0, 1]`. -/
theorem c4_counterexample :
    (assess_current_state noStd true [] "m" [] [PerfItem.num 2] []).map
      (fun p => p.1.predicted_performance) = .ok 2 ∧
    ¬ ((2 : ℚ) ≤ 1) := by
  constructor
  · simp only [assess_current_state, Except.map]
    norm_num [predict_performance, extract_performance_values, np_mean, last_n]
  · norm_num

/-- C4 amended: `confidence_score` and `uncertainty_estimate` always lie
in `[0, 1]`; `predicted_performance` lies in `[0, 1]` whenever the
extracted history is empty or has at least three samples — with one or two
samples it is the raw mean of the samples and inherits their range. -/
theorem c4_amended_bounds (std : List ℚ → ℚ) (jOk : Bool)
    (stored : List (String × ℚ)) (model_name : String)
    (metrics : List (String × ℚ)) (rp : List PerfItem) (ctx : Ctx)
    (a : Assessment) (written : List String)
    (h : assess_current_state std jOk stored model_name metrics rp ctx =
      .ok (a, written)) :
    (0 ≤ a.confidence_score ∧ a.confidence_score ≤ 1) ∧
    (0 ≤ a.uncertainty_estimate ∧ a.uncertainty_estimate ≤ 1) ∧
    ((extract_performance_values rp).length = 0 ∨
        3 ≤ (extract_performance_values rp).length →
      0 ≤ a.predicted_performance ∧ a.predicted_performance ≤ 1) := by
  cases jOk with
  | false => simp [assess_current_state] at h
  | true =>
    simp only [assess_current_state, Except.ok.injEq, Prod.mk.injEq, if_pos] at h
    obtain ⟨ha, _⟩ := h
    subst ha
    refine ⟨?_, ?_, ?_⟩
    · exact calculate_confidence_bounds std metrics _
    · exact estimate_uncertainty_bounds _ metrics
    · intro hlen
      exact predict_performance_bounds _ metrics hlen

lemma lookup_modifyGoal_self (l : List (String × Goal)) (key : String)
    (f : Goal → Goal) :
    lookupGoal (modifyGoal l key f) key = (lookupGoal l key).map f := by
  induction l with
  | nil => rfl
  | cons p t ih =>
    obtain ⟨k, g⟩ := p
    by_cases h : k = key
    · simp [modifyGoal, lookupGoal, h]
    · simp [modifyGoal, lookupGoal, h, ih]

lemma lookup_modifyPriority (l : List (String × Goal)) (d key : String) :
    (lookupGoal (modifyGoal l d
        (fun g => { g with priority := max 1 (g.priority - 1) })) key).map projNP =
      (lookupGoal l key).map projNP := by
  induction l with
  | nil => rfl
  | cons p t ih =>
    obtain ⟨k, g⟩ := p
    by_cases h1 : k = d
    · subst h1
      by_cases h2 : k = key
      · subst h2
        simp [modifyGoal, lookupGoal, projNP]
      · simp [modifyGoal, lookupGoal, h2]
    · by_cases h2 : k = key
      · subst h2
        simp [modifyGoal, lookupGoal, h1]
      · simp [modifyGoal, lookupGoal, h1, h2, ih]

lemma lookup_boostDeps (deps : List String) (l : List (String × Goal))
    (key : String) :
    (lookupGoal (boostDeps deps l) key).map projNP =
      (lookupGoal l key).map projNP := by
  induction deps generalizing l with
  | nil => rfl
  | cons d ds ih =>
    have h1 : boostDeps (d :: ds) l =
        boostDeps ds (modifyGoal l d
          (fun g => { g with priority := max 1 (g.priority - 1) })) := rfl
    rw [h1, ih, lookup_modifyPriority]

/-- The effect of `update_goal_progress` on a goal that is present: the
call succeeds, the goal's `current_value` becomes the new value, its
progress becomes `newProgress`, crossing `progress ≥ 1` flips `active` and
prepends the completion journal entry before the progress-update entry. -/
lemma lookup_modifyGoal_ne (l : List (String × Goal)) (key k : String)
    (f : Goal → Goal) (h : key ≠ k) :
    lookupGoal (modifyGoal l key f) k = lookupGoal l k := by
  induction l with
  | nil => rfl
  | cons p t ih =>
    obtain ⟨k', g⟩ := p
    by_cases h1 : k' = key
    · subst h1
      simp [modifyGoal, lookupGoal, h]
    · by_cases h2 : k' = k
      · simp [modifyGoal, lookupGoal, h1, h2, Ne.symm h]
      · simp [modifyGoal, lookupGoal, h1, h2, ih]

lemma lookup_boostDeps_not_mem (deps : List String)
    (l : List (String × Goal)) (k : String) (h : k ∉ deps) :
    lookupGoal (boostDeps deps l) k = lookupGoal l k := by
  induction deps generalizing l with
  | nil => rfl
  | cons d ds ih =>
    have hd : d ≠ k := fun he => h (by simp [he])
    have hstep : boostDeps (d :: ds) l =
        boostDeps ds (modifyGoal l d
          (fun g => { g with priority := max 1 (g.priority - 1) })) := rfl
    rw [hstep, ih _ (fun hm => h (List.mem_cons_of_mem _ hm))]
    exact lookup_modifyGoal_ne _ _ _ _ hd

/-- A dependency listed exactly once gets its priority boosted exactly
once by the completion trigger. -/
lemma lookup_boostDeps_count_one (deps : List String) (k : String) :
    ∀ l, deps.count k = 1 →
      lookupGoal (boostDeps deps l) k = (lookupGoal l k).map
        (fun g => { g with priority := max 1 (g.priority - 1) }) := by
  induction deps with
  | nil => intro l h; simp [List.count_nil] at h
  | cons d ds ih =>
    intro l h
    have hstep : boostDeps (d :: ds) l =
        boostDeps ds (modifyGoal l d
          (fun g => { g with priority := max 1 (g.priority - 1) })) := rfl
    by_cases hdk : d = k
    · subst hdk
      have h0 : ds.count d = 0 := by
        simp [List.count_cons] at h
        omega
      rw [hstep, lookup_boostDeps_not_mem _ _ _ (List.count_eq_zero.mp h0),
        lookup_modifyGoal_self]
    · have h1 : ds.count k = 1 := by
        simpa [List.count_cons, hdk] using h
      rw [hstep, ih _ h1, lookup_modifyGoal_ne _ _ _ _ hdk]

lemma update_found_spec (s : EngineState) (gid : String) (v : ℚ) (g : Goal)
    (hg : lookupGoal s.active_goals gid = some g) :
    ∃ s1 g1, update_goal_progress true s gid v = .ok (true, s1) ∧
      lookupGoal s1.active_goals gid = some g1 ∧
      g1.current_value = v ∧ g1.target_value = g.target_value ∧
      g1.dependencies = g.dependencies ∧
      g1.progress = newProgress g v ∧
      g1.active = (if 1 ≤ newProgress g v then false else g.active) ∧
      s1.journal = s.journal ++
        (if 1 ≤ newProgress g v then ["goal_completed", "goal_progress_update"]
         else ["goal_progress_update"]) ∧
      s1.active_goals =
        (if 1 ≤ newProgress g v then
          boostDeps g.dependencies
            (modifyGoal s.active_goals gid (fun _ => completedGoal g v))
         else modifyGoal s.active_goals gid (fun _ => updatedGoal g v)) := by
  have hbody : update_goal_progress true s gid v =
      (if 1 ≤ newProgress g v then
         .ok (true,
           { s with
             active_goals := boostDeps g.dependencies
               (modifyGoal s.active_goals gid (fun _ => completedGoal g v))
             journal := s.journal ++ ["goal_completed", "goal_progress_update"] })
       else
         .ok (true,
           { s with
             active_goals := modifyGoal s.active_goals gid (fun _ => updatedGoal g v)
             journal := s.journal ++ ["goal_progress_update"] })) := by
    unfold update_goal_progress
    rw [hg]
    by_cases ht : g.target_value = g.current_value
    · have hnp : newProgress g v = g.progress := by simp [newProgress, ht]
      by_cases hp : 1 ≤ g.progress
      · simp [ht, hp, hnp, trigger_goal_completion_decisions, storeJournal,
          completedGoal, updatedGoal, List.append_assoc]
      · simp [ht, hp, hnp, storeJournal, updatedGoal]
    · have hnp : newProgress g v =
          clampMinMax ((v - g.current_value) / (g.target_value - g.current_value)) := by
        simp [newProgress, ht]
      by_cases hp : 1 ≤
          clampMinMax ((v - g.current_value) / (g.target_value - g.current_value))
      · simp [ht, hp, hnp, trigger_goal_completion_decisions, storeJournal,
          completedGoal, updatedGoal, List.append_assoc]
      · simp [ht, hp, hnp, storeJournal, updatedGoal]
  rw [hbody]
  by_cases hp : 1 ≤ newProgress g v
  · rw [if_pos hp]
    have hl : (lookupGoal (boostDeps g.dependencies
        (modifyGoal s.active_goals gid (fun _ => completedGoal g v))) gid).map
          projNP = some (projNP (completedGoal g v)) := by
      rw [lookup_boostDeps, lookup_modifyGoal_self, hg]
      rfl
    obtain ⟨g1, hg1, hproj⟩ : ∃ g1, lookupGoal (boostDeps g.dependencies
        (modifyGoal s.active_goals gid (fun _ => completedGoal g v))) gid =
          some g1 ∧ projNP g1 = projNP (completedGoal g v) := by
      cases hc : lookupGoal (boostDeps g.dependencies
          (modifyGoal s.active_goals gid (fun _ => completedGoal g v))) gid with
      | none => rw [hc] at hl; simp at hl
      | some g1 =>
        rw [hc] at hl
        simp at hl
        exact ⟨g1, rfl, hl⟩
    refine ⟨_, g1, rfl, hg1, ?_, ?_, ?_, ?_, ?_, ?_, ?_⟩
    · exact congrArg (fun p => p.2.1) hproj
    · exact congrArg (fun p => p.2.2.1) hproj
    · exact congrArg (fun p => p.2.2.2.2) hproj
    · exact congrArg (fun p => p.1) hproj
    · rw [if_pos hp]
      exact congrArg (fun p => p.2.2.2.1) hproj
    · rw [if_pos hp]
    · rw [if_pos hp]
  · rw [if_neg hp]
    refine ⟨_, updatedGoal g v, rfl, ?_, rfl, rfl, rfl, rfl, ?_, ?_, ?_⟩
    · rw [lookup_modifyGoal_self, hg]
      rfl
    · rw [if_neg hp]
      rfl
    · rw [if_neg hp]
    · rw [if_neg hp]

/-- C5 counterexample: at confidence 1/2, uncertainty 1/2 and the
six-sample history `[0,1,0,1,0,1]` (variance 1/4), the source recommends
Conservative — its variance rule already fires with six samples — while
the claim's cascade, whose trailing-10-sample variance rule needs ten
samples, yields Balanced. -/
theorem c5_counterexample :
    recommend_learning_strategy (1 / 2) (1 / 2) [0, 1, 0, 1, 0, 1] =
      LearningStrategy.conservative ∧
    claimed_strategy_rule (1 / 2) (1 / 2) [0, 1, 0, 1, 0, 1] =
      LearningStrategy.balanced ∧
    LearningStrategy.conservative ≠ LearningStrategy.balanced := by
  refine ⟨?_, ?_, by decide⟩
  · norm_num [recommend_learning_strategy, np_var, np_mean, last_n]
  · norm_num [claimed_strategy_rule]

/-- C5 amended: the ordered first-match cascade holds as claimed except
for the window guards: the flat-trend rule requires a full ten samples,
while the variance rule already applies once more than five samples exist
and is computed over the trailing `min(10, n)` samples. -/
theorem c5_amended_cascade (confidence uncertainty : ℚ) (vals : List ℚ) :
    recommend_learning_strategy confidence uncertainty vals =
      amended_strategy_rule confidence uncertainty vals := rfl

lemma execute_decision_true_fst (s : EngineState) (d : Decision) :
    (execute_decision true s d).1 =
      { d with
        status := DecisionStatus.completed
        result := some (handlerResultFor d) } := by
  cases hd : d.decision_type
  case parameter_adjustment =>
    cases hk : paramKeyCount d.parameters <;>
      simp [execute_decision, runHandler, hd, hk, handlerResultFor,
        execute_parameter_adjustment, store_decision_result, storeJournal]
  all_goals
    simp [execute_decision, runHandler, hd, handlerResultFor,
      execute_parameter_adjustment, execute_strategy_change,
      store_decision_result, storeJournal]

lemma execute_decision_true_snd (s : EngineState) (d : Decision) :
    ∃ s1, (execute_decision true s d).2 = .ok s1 ∧
      s1.pending_decisions = s.pending_decisions ∧
      s1.decision_confidence_threshold = s.decision_confidence_threshold ∧
      s1.max_concurrent_decisions = s.max_concurrent_decisions := by
  cases hd : d.decision_type
  case parameter_adjustment =>
    cases hk : paramKeyCount d.parameters <;>
      (simp only [execute_decision, runHandler, hd, hk,
        execute_parameter_adjustment, store_decision_result, storeJournal]
       exact ⟨_, rfl, rfl, rfl, rfl⟩)
  all_goals
    simp only [execute_decision, runHandler, hd,
      execute_parameter_adjustment, execute_strategy_change,
      store_decision_result, storeJournal]
  all_goals exact ⟨_, rfl, rfl, rfl, rfl⟩

lemma exec_loop_spec (cands : List Decision) : ∀ (s : EngineState)
    (acc : List Decision),
    ∃ s1, exec_loop true cands s acc =
        .ok (acc ++ (cands.filter
          (fun d => s.decision_confidence_threshold ≤ d.confidence)).map
            (fun d => { d with
              status := DecisionStatus.completed
              result := some (handlerResultFor d) }), s1) ∧
      s1.pending_decisions = (cands.filter
          (fun d => s.decision_confidence_threshold ≤ d.confidence)).foldl
            (fun l d => eraseById l d.decision_id) s.pending_decisions ∧
      s1.decision_confidence_threshold = s.decision_confidence_threshold := by
  induction cands with
  | nil =>
    intro s acc
    exact ⟨s, by simp [exec_loop], rfl, rfl⟩
  | cons d rest ih =>
    intro s acc
    by_cases hc : s.decision_confidence_threshold ≤ d.confidence
    · obtain ⟨t1, hsnd, hpend, hθ, _⟩ := execute_decision_true_snd s d
      have hED : execute_decision true s d =
          ({ d with
            status := DecisionStatus.completed
            result := some (handlerResultFor d) }, .ok t1) := by
        rw [← execute_decision_true_fst s d, ← hsnd]
      obtain ⟨s1, hloop, hp1, hθ1⟩ := ih
        { t1 with pending_decisions := eraseById t1.pending_decisions d.decision_id }
        (acc ++ [{ d with
          status := DecisionStatus.completed
          result := some (handlerResultFor d) }])
      refine ⟨s1, ?_, ?_, ?_⟩
      · rw [exec_loop, if_pos hc, hED]
        dsimp only
        rw [hloop]
        simp [List.filter_cons, hc, hθ, List.append_assoc]
      · rw [hp1]
        simp [List.filter_cons, hc, hθ, hpend]
      · rw [hθ1]
        exact hθ
    · obtain ⟨s1, hloop, hp1, hθ1⟩ := ih s acc
      refine ⟨s1, ?_, ?_, ?_⟩
      · rw [exec_loop, if_neg hc, hloop]
        simp [List.filter_cons, hc]
      · rw [hp1]
        simp [List.filter_cons, hc]
      · exact hθ1

lemma mem_sortByPriority {d : Decision} {l : List Decision} :
    d ∈ sortByPriority l ↔ d ∈ l := by
  simp only [sortByPriority, List.mem_append, List.mem_filter]
  constructor
  · rintro (⟨h, _⟩ | ⟨h, _⟩ | ⟨h, _⟩ | ⟨h, _⟩) <;> exact h
  · intro h
    cases hd : d.priority <;> simp [hd, h]

lemma mem_eraseById {d : Decision} {l : List Decision} {i : String}
    (hd : d ∈ l) (hne : d.decision_id ≠ i) : d ∈ eraseById l i := by
  induction l with
  | nil => cases hd
  | cons a t ih =>
    by_cases ha : a.decision_id = i
    · rcases List.mem_cons.mp hd with rfl | hdt
      · exact absurd ha hne
      · simpa [eraseById, ha] using hdt
    · rcases List.mem_cons.mp hd with rfl | hdt
      · simp [eraseById, ha]
      · simp [eraseById, ha, ih hdt]

lemma mem_foldl_eraseById {d : Decision} (es : List Decision) :
    ∀ l, d ∈ l → (∀ e ∈ es, d.decision_id ≠ e.decision_id) →
      d ∈ es.foldl (fun l e => eraseById l e.decision_id) l := by
  induction es with
  | nil =>
    intro l h _
    simpa using h
  | cons e t ih =>
    intro l h hne
    simp only [List.foldl_cons]
    exact ih _ (mem_eraseById h (hne e (by simp)))
      (fun e' he' => hne e' (by simp [he']))

lemma pairwise_sortByPriority (l : List Decision) :
    (sortByPriority l).Pairwise (fun a b =>
      ¬(a.priority = DecisionPriority.high ∧
        b.priority = DecisionPriority.critical)) := by
  unfold sortByPriority
  refine List.pairwise_append.mpr ⟨?_, ?_, ?_⟩
  · refine List.pairwise_of_forall_mem_list ?_
    intro a ha b hb
    have h1 : a.priority = DecisionPriority.critical :=
      by simpa using (List.mem_filter.mp ha).2
    rintro ⟨h2, _⟩
    rw [h1] at h2
    cases h2
  · refine List.pairwise_of_forall_mem_list ?_
    intro a ha b hb
    have h1 : b.priority = DecisionPriority.high ∨
        b.priority = DecisionPriority.medium ∨
        b.priority = DecisionPriority.low := by
      rcases List.mem_append.mp hb with h | h
      · exact Or.inl (by simpa using (List.mem_filter.mp h).2)
      · rcases List.mem_append.mp h with h | h
        · exact Or.inr (Or.inl (by simpa using (List.mem_filter.mp h).2))
        · exact Or.inr (Or.inr (by simpa using (List.mem_filter.mp h).2))
    rintro ⟨_, h2⟩
    rcases h1 with h1 | h1 | h1 <;> rw [h1] at h2 <;> cases h2
  · intro a ha b hb
    have h1 : a.priority = DecisionPriority.critical :=
      by simpa using (List.mem_filter.mp ha).2
    rintro ⟨h2, _⟩
    rw [h1] at h2
    cases h2

/-- C6: on each cycle the pending queue is sorted by ascending priority
value, only Critical/High decisions are candidates, at most
`max_concurrent_decisions` are executed, each only when its confidence
reaches the threshold; executed decisions end Completed, no executed High
decision precedes an executed Critical one, and every pending decision
below the threshold (in particular a Critical/High one, which thereby
stays Pending) remains in the queue. -/
theorem c6_scheduling_policy (s : EngineState)
    (hids : (s.pending_decisions.map (fun d => d.decision_id)).Nodup) :
    ∃ executed s1, execute_pending_decisions true s = .ok (executed, s1) ∧
      (∀ d ∈ executed,
        (d.priority = DecisionPriority.critical ∨
          d.priority = DecisionPriority.high) ∧
        s.decision_confidence_threshold ≤ d.confidence ∧
        d.status = DecisionStatus.completed) ∧
      executed.length ≤ s.max_concurrent_decisions ∧
      executed.Pairwise (fun a b =>
        ¬(a.priority = DecisionPriority.high ∧
          b.priority = DecisionPriority.critical)) ∧
      (∀ d ∈ s.pending_decisions,
        d.confidence < s.decision_confidence_threshold →
          d ∈ s1.pending_decisions) := by
  obtain ⟨s1, hloop, hpend, hθ⟩ := exec_loop_spec
    ((sortByPriority s.pending_decisions).filter
        (fun d => d.priority = DecisionPriority.critical ∨
          d.priority = DecisionPriority.high)
      |>.take s.max_concurrent_decisions)
    { s with pending_decisions := sortByPriority s.pending_decisions } []
  rw [List.nil_append] at hloop
  refine ⟨_, s1, hloop, ?_, ?_, ?_, ?_⟩
  · intro d hdm
    obtain ⟨d0, hd0, rfl⟩ := List.mem_map.mp hdm
    obtain ⟨hd0c, hgate⟩ := List.mem_filter.mp hd0
    have hhp := List.mem_of_mem_take hd0c
    have hprio : d0.priority = DecisionPriority.critical ∨
        d0.priority = DecisionPriority.high := by
      simpa using (List.mem_filter.mp hhp).2
    refine ⟨?_, ?_, rfl⟩
    · simpa using hprio
    · simpa using hgate
  · rw [List.length_map]
    exact le_trans (List.length_filter_le _ _) (List.length_take_le _ _)
  · refine List.pairwise_map.mpr
      (((pairwise_sortByPriority s.pending_decisions).sublist ?_).imp ?_)
    · exact ((List.filter_sublist _).trans (List.take_sublist _ _)).trans
        (List.filter_sublist _)
    · intro a b hab
      simpa using hab
  · intro d hd hconf
    rw [hpend]
    refine mem_foldl_eraseById _ _ (mem_sortByPriority.mpr hd) ?_
    intro e he
    obtain ⟨hec, hegate⟩ := List.mem_filter.mp he
    have he_mem : e ∈ s.pending_decisions := mem_sortByPriority.mp
      (List.mem_filter.mp (List.mem_of_mem_take hec)).1
    have hce : s.decision_confidence_threshold ≤ e.confidence := by
      simpa using hegate
    intro hid
    have hde : d = e := List.inj_on_of_nodup_map hids hd he_mem hid
    rw [hde] at hconf
    exact absurd hce (not_le.mpr hconf)

theorem c6_scheduling_policy_witness :
    (c6_state.pending_decisions.map (fun d => d.decision_id)).Nodup ∧
    (∃ executed s1,
      execute_pending_decisions true c6_state = .ok (executed, s1) ∧
      (∀ d ∈ executed,
        (d.priority = DecisionPriority.critical ∨
          d.priority = DecisionPriority.high) ∧
        c6_state.decision_confidence_threshold ≤ d.confidence ∧
        d.status = DecisionStatus.completed) ∧
      executed.length ≤ c6_state.max_concurrent_decisions ∧
      executed.Pairwise (fun a b =>
        ¬(a.priority = DecisionPriority.high ∧
          b.priority = DecisionPriority.critical)) ∧
      (∀ d ∈ c6_state.pending_decisions,
        d.confidence < c6_state.decision_confidence_threshold →
          d ∈ s1.pending_decisions)) :=
  ⟨by decide, c6_scheduling_policy c6_state (by decide)⟩

/-- C1 counterexample: on a goal with target 10 and current value 0,
`update_goal_progress("g", 5)` sets progress 1/2; repeating the identical
call succeeds but recomputes progress from the new old value and resets it
to 0 — the claim's "no drift" fails. -/
theorem c1_counterexample :
    (match update_goal_progress true c1_state "g" 5 with
     | .ok (_, s1) =>
       ((lookupGoal s1.active_goals "g").map Goal.progress,
        match update_goal_progress true s1 "g" 5 with
        | .ok (_, s2) => (lookupGoal s2.active_goals "g").map Goal.progress
        | .error _ => none)
     | .error _ => (none, none)) = (some (1 / 2), some 0) ∧
    ((1 : ℚ) / 2) ≠ 0 := by
  constructor
  · norm_num [update_goal_progress, lookupGoal, modifyGoal, boostDeps,
      storeJournal, trigger_goal_completion_decisions, clampMinMax,
      c1_state, c1_goal, initEngine]
  · norm_num

/-- C1 amended: a second identical `update_goal_progress(id, v)` call
always succeeds, but it recomputes progress against the value stored by
the first call: when `target_value ≠ v` the progress is reset to 0 (the
clamp of `(v − v)/(target − v)`); it is preserved only when
`target_value = v`, where the recomputation is skipped. -/
theorem c1_amended_second_update (s : EngineState) (gid : String) (v : ℚ)
    (g : Goal) (hg : lookupGoal s.active_goals gid = some g) :
    ∃ s1 g1 s2 g2, update_goal_progress true s gid v = .ok (true, s1) ∧
      lookupGoal s1.active_goals gid = some g1 ∧
      update_goal_progress true s1 gid v = .ok (true, s2) ∧
      lookupGoal s2.active_goals gid = some g2 ∧
      g2.progress = (if g.target_value = v then g1.progress else 0) := by
  obtain ⟨s1, g1, h1, hl1, hcv1, htv1, _, _, _, _, _⟩ :=
    update_found_spec s gid v g hg
  obtain ⟨s2, g2, h2, hl2, _, _, _, hpr2, _, _, _⟩ :=
    update_found_spec s1 gid v g1 hl1
  refine ⟨s1, g1, s2, g2, h1, hl1, h2, hl2, ?_⟩
  rw [hpr2]
  unfold newProgress
  rw [hcv1, htv1]
  by_cases h : g.target_value = v
  · rw [if_neg (by simp [h]), if_pos h]
  · rw [if_pos h, if_neg h]
    norm_num [clampMinMax]

theorem c1_amended_second_update_witness :
    (lookupGoal c1_state.active_goals "g" = some c1_goal) ∧
    (∃ s1 g1 s2 g2,
      update_goal_progress true c1_state "g" 5 = .ok (true, s1) ∧
      lookupGoal s1.active_goals "g" = some g1 ∧
      update_goal_progress true s1 "g" 5 = .ok (true, s2) ∧
      lookupGoal s2.active_goals "g" = some g2 ∧
      g2.progress = (if c1_goal.target_value = 5 then g1.progress else 0)) :=
  ⟨rfl, c1_amended_second_update c1_state "g" 5 c1_goal rfl⟩

/-- C3 counterexample: goal "g" (target 10, dependency "d" at priority 3)
completes on `update("g", 10)` — journal gains `goal_completed`, "d" is
boosted to priority 2.  A further `update("g", 11)` on the now-inactive
goal fires the completion side effects again: a second `goal_completed`
entry is journaled and "d" is boosted again to priority 1, refuting
"deactivates exactly once, side effects never re-trigger". -/
theorem c3_counterexample :
    (match update_goal_progress true c3_state "g" 10 with
     | .ok (_, s1) =>
       (s1.journal, (lookupGoal s1.active_goals "d").map Goal.priority,
        match update_goal_progress true s1 "g" 11 with
        | .ok (_, s2) =>
          some (s2.journal, (lookupGoal s2.active_goals "d").map Goal.priority)
        | .error _ => none)
     | .error _ => ([], none, none)) =
      (["goal_completed", "goal_progress_update"], some 2,
       some (["goal_completed", "goal_progress_update",
              "goal_completed", "goal_progress_update"], some 1)) ∧
    (2 : Int) ≠ 1 := by
  constructor
  · norm_num [update_goal_progress, lookupGoal, modifyGoal, boostDeps,
      storeJournal, trigger_goal_completion_decisions, clampMinMax,
      c3_state, c3_goal_g, c3_goal_d, initEngine]
    simp
  · norm_num

/-- C3 amended: crossing into `progress ≥ 1.0` deactivates the goal and
fires the completion side effects, but updates are not gated on `active`:
every later `update_goal_progress` call on the (already inactive) goal
whose recomputed-or-retained progress (`newProgress`) is still `≥ 1.0`
fires the completion side effects again — the `goal_completed` journal
entry is re-emitted, the dependent-priority boost is re-applied to the
whole goal map, and in particular every dependency listed exactly once
(other than the goal itself) has its priority decremented again (floor 1).
Deactivation is idempotent only in the flag value. -/
theorem c3_amended_retrigger (s : EngineState) (gid : String) (v : ℚ)
    (g : Goal) (hg : lookupGoal s.active_goals gid = some g)
    (hact : g.active = false) (hp : 1 ≤ newProgress g v) :
    ∃ s1 g1, update_goal_progress true s gid v = .ok (true, s1) ∧
      lookupGoal s1.active_goals gid = some g1 ∧ g1.active = false ∧
      s1.journal = s.journal ++ ["goal_completed", "goal_progress_update"] ∧
      s1.active_goals = boostDeps g.dependencies
        (modifyGoal s.active_goals gid (fun _ => completedGoal g v)) ∧
      (∀ k, k ≠ gid → g.dependencies.count k = 1 →
        lookupGoal s1.active_goals k = (lookupGoal s.active_goals k).map
          (fun gd => { gd with priority := max 1 (gd.priority - 1) })) := by
  obtain ⟨s1, g1, h1, hl1, _, _, _, _, hac, hj, hgoals⟩ :=
    update_found_spec s gid v g hg
  refine ⟨s1, g1, h1, hl1, ?_, ?_, ?_, ?_⟩
  · rw [hac, if_pos hp]
  · rw [hj, if_pos hp]
  · rw [hgoals, if_pos hp]
  · intro k hk hcount
    rw [hgoals, if_pos hp,
      lookup_boostDeps_count_one g.dependencies k _ hcount,
      lookup_modifyGoal_ne _ _ _ _ (Ne.symm hk)]

theorem c3_amended_retrigger_witness :
    (lookupGoal c3w_state.active_goals "g" = some c3w_goal ∧
     c3w_goal.active = false ∧ 1 ≤ newProgress c3w_goal 9) ∧
    (∃ s1 g1, update_goal_progress true c3w_state "g" 9 = .ok (true, s1) ∧
      lookupGoal s1.active_goals "g" = some g1 ∧ g1.active = false ∧
      s1.journal = c3w_state.journal ++
        ["goal_completed", "goal_progress_update"] ∧
      s1.active_goals = boostDeps c3w_goal.dependencies
        (modifyGoal c3w_state.active_goals "g"
          (fun _ => completedGoal c3w_goal 9)) ∧
      (∀ k, k ≠ "g" → c3w_goal.dependencies.count k = 1 →
        lookupGoal s1.active_goals k =
          (lookupGoal c3w_state.active_goals k).map
            (fun gd => { gd with priority := max 1 (gd.priority - 1) }))) :=
  ⟨⟨rfl, rfl, by norm_num [newProgress, c3w_goal, clampMinMax]⟩,
    c3_amended_retrigger c3w_state "g" 9 c3w_goal rfl rfl
      (by norm_num [newProgress, c3w_goal, clampMinMax])⟩

/-- C10: the progress formula is guarded by `target_value ≠ old_value`:
when the target equals the goal's previous current value the recomputation
is skipped entirely and progress keeps its prior value (the update still
succeeds), and whenever the formula is evaluated its denominator
`target_value − old_value` is nonzero. -/
theorem c10_no_division_by_zero (s : EngineState) (gid : String) (v : ℚ)
    (g : Goal) (hg : lookupGoal s.active_goals gid = some g) :
    (g.target_value = g.current_value →
      ∃ s1 g1, update_goal_progress true s gid v = .ok (true, s1) ∧
        lookupGoal s1.active_goals gid = some g1 ∧
        g1.progress = g.progress) ∧
    (g.target_value ≠ g.current_value →
      g.target_value - g.current_value ≠ 0) := by
  constructor
  · intro ht
    obtain ⟨s1, g1, h1, hl1, _, _, _, hpr, _, _, _⟩ :=
      update_found_spec s gid v g hg
    refine ⟨s1, g1, h1, hl1, ?_⟩
    rw [hpr]
    simp [newProgress, ht]
  · intro ht
    exact sub_ne_zero_of_ne ht

theorem c10_no_division_by_zero_witness :
    (lookupGoal c10_state.active_goals "g" = some c10_goal) ∧
    ((c10_goal.target_value = c10_goal.current_value →
      ∃ s1 g1, update_goal_progress true c10_state "g" 7 = .ok (true, s1) ∧
        lookupGoal s1.active_goals "g" = some g1 ∧
        g1.progress = c10_goal.progress) ∧
     (c10_goal.target_value ≠ c10_goal.current_value →
      c10_goal.target_value - c10_goal.current_value ≠ 0)) :=
  ⟨rfl, c10_no_division_by_zero c10_state "g" 7 c10_goal rfl⟩

theorem c4_amended_bounds_witness :
    (assess_current_state noStd true [] "m" [] [] [] =
      .ok (c4w_assessment, ["self_assessment"])) ∧
    ((0 ≤ c4w_assessment.confidence_score ∧ c4w_assessment.confidence_score ≤ 1) ∧
     (0 ≤ c4w_assessment.uncertainty_estimate ∧ c4w_assessment.uncertainty_estimate ≤ 1) ∧
     ((extract_performance_values []).length = 0 ∨
         3 ≤ (extract_performance_values []).length →
       0 ≤ c4w_assessment.predicted_performance ∧
         c4w_assessment.predicted_performance ≤ 1)) :=
  ⟨by norm_num [assess_current_state, extract_performance_values,
      calculate_confidence, predict_performance, estimate_uncertainty,
      identify_knowledge_gaps, recommend_learning_strategy, dedupFirst,
      dedupFirstAux, c4w_assessment],
    c4_amended_bounds noStd true [] "m" [] [] [] c4w_assessment
      ["self_assessment"]
      (by norm_num [assess_current_state, extract_performance_values,
        calculate_confidence, predict_performance, estimate_uncertainty,
        identify_knowledge_gaps, recommend_learning_strategy, dedupFirst,
        dedupFirstAux, c4w_assessment])⟩

end Helios
